import Mathlib

/-!
# The sample user service (`sample-project/main.go`)

A shallow embedding of the two HTTP handlers `getUserByID` and `createUser`,
of the predicate `validateUser`, and of the package-level slice `users` they
share.  Requests are handled one after the other; the slice is passed
explicitly from one handler call to the next.

Two library calls decide what the handlers do with malformed input:

* `strconv.Atoi` (Go standard library), embedded below from its source
  for a 64-bit target, together with `ParseInt` and `ParseUint` at base 10;
* `c.ShouldBindJSON` (gin, on top of `encoding/json`), which the handler
  `createUser` takes as a parameter; `ShouldBindJSON` below is the instance
  that follows the documented decoding of a JSON value into the struct
  `User`.
-/

set_option autoImplicit false

namespace UserService

/-! ## Data model -/

/-- The struct `User`: three fields, no constraint between them. -/
structure User where
  ID : Int
  Name : String
  Email : String
  deriving DecidableEq, Repr

/-- The zero value of `User`, which `var newUser User` holds before binding. -/
def User.zero : User := ⟨0, "", ""⟩

/-- A Go string seen as its bytes (path parameters and number literals). -/
abbrev GoBytes := List Nat

/-- The UTF-8 bytes of a string literal. -/
def bytesOf (s : String) : GoBytes :=
  (s.data.flatMap String.utf8EncodeChar).map UInt8.toNat

/-- The JSON body handed to `c.JSON`: a `User`, or a `gin.H` map of strings. -/
inductive JSONBody where
  | user (u : User)
  | H (entries : List (String × String))
  deriving DecidableEq, Repr

/-- What a handler writes with `c.JSON(code, obj)`. -/
structure Response where
  status : Nat
  body : JSONBody
  deriving DecidableEq, Repr

/-- The constant `http.StatusOK`. -/
def StatusOK : Nat := 200

/-- The response `c.JSON(404, gin.H{"error": "not found"})`. -/
def notFound : Response := ⟨404, JSONBody.H [("error", "not found")]⟩

/-- The process state the handlers see: the global slice `users`, and the
lines the program has written to standard output with `fmt.Println`. -/
structure State where
  users : List User
  stdout : List String
  deriving DecidableEq, Repr

/-! ## `strconv` at base 10 on a 64-bit target -/

/-- The two error kinds `strconv` reports at base 10. -/
inductive NumError where
  | ErrSyntax
  | ErrRange
  deriving DecidableEq, Repr

/-- The constant `strconv.IntSize`. -/
def intSize : Nat := 64

/-- The constant `maxUint64`. -/
def maxUint64 : Nat := 2 ^ 64 - 1

/-- The helper `lower(c)`: `c | ('x' - 'X')`. -/
def lower (c : Nat) : Nat := c ||| 32

/-- The `switch` of `ParseUint` that turns a byte into a digit value, or
into nothing when the byte is neither a decimal digit nor a letter. -/
def digitValue (c : Nat) : Option Nat :=
  if 48 ≤ c ∧ c ≤ 57 then some (c - 48)
  else if 97 ≤ lower c ∧ lower c ≤ 122 then some (lower c - 97 + 10)
  else none

/-- The digit loop of `ParseUint` at base 10: `n` is the value read so far.
A value that no longer fits is reported at once, before the remaining bytes
are looked at. -/
def ParseUint.loop (cutoff maxVal : Nat) : GoBytes → Nat → Nat × Option NumError
  | [], n => (n, none)
  | c :: rest, n =>
    match digitValue c with
    | none => (0, some NumError.ErrSyntax)
    | some d =>
      if d ≥ 10 then (0, some NumError.ErrSyntax)
      else if n ≥ cutoff then (maxVal, some NumError.ErrRange)
      else
        let n10 := (n * 10) % 2 ^ 64
        let n1 := (n10 + d) % 2 ^ 64
        if n1 < n10 ∨ n1 > maxVal then (maxVal, some NumError.ErrRange)
        else ParseUint.loop cutoff maxVal rest n1

/-- The function `strconv.ParseUint(s, 10, bitSize)` for `bitSize` 0 or 64. -/
def ParseUint (s : GoBytes) (bitSize : Nat) : Nat × Option NumError :=
  if s = [] then (0, some NumError.ErrSyntax)
  else
    let bitSize := if bitSize = 0 then intSize else bitSize
    let cutoff := maxUint64 / 10 + 1
    let maxVal := 2 ^ bitSize - 1
    ParseUint.loop cutoff maxVal s 0

/-- The conversion `int64(x)`: wrap into the signed 64-bit range. -/
def toInt64 (x : Int) : Int := (x + 2 ^ 63) % 2 ^ 64 - 2 ^ 63

/-- The function `strconv.ParseInt(s, 10, bitSize)` for `bitSize` 0 or 64. -/
def ParseInt (s : GoBytes) (bitSize : Nat) : Int × Option NumError :=
  match s with
  | [] => (0, some NumError.ErrSyntax)
  | c0 :: tl =>
    let neg : Bool := c0 ≠ 43 ∧ c0 = 45
    let digits := if c0 = 43 then tl else if c0 = 45 then tl else s
    let r := ParseUint digits bitSize
    if r.2 ≠ none ∧ r.2 ≠ some NumError.ErrRange then (0, r.2)
    else
      let bitSize := if bitSize = 0 then intSize else bitSize
      let cutoff : Nat := 2 ^ (bitSize - 1)
      if neg = false ∧ r.1 ≥ cutoff then (((cutoff - 1 : Nat) : Int), some NumError.ErrRange)
      else if neg = true ∧ r.1 > cutoff then (-(cutoff : Int), some NumError.ErrRange)
      else
        let n := toInt64 (r.1 : Int)
        (if neg then toInt64 (-n) else n, none)

/-- The fast-path loop of `Atoi`: `ch -= '0'` on a byte, then `ch > 9`. -/
def Atoi.loop : GoBytes → Int → Option Int
  | [], n => some n
  | c :: rest, n =>
    let ch := (c + 256 - 48) % 256
    if ch > 9 then none else Atoi.loop rest (n * 10 + (ch : Int))

/-- The function `strconv.Atoi`: the value and the error it returns. -/
def Atoi (s : GoBytes) : Int × Option NumError :=
  let sLen := s.length
  if (intSize = 32 ∧ (0 < sLen ∧ sLen < 10)) ∨ (intSize = 64 ∧ (0 < sLen ∧ sLen < 19)) then
    match s with
    | [] => (0, some NumError.ErrSyntax)
    | c0 :: tl =>
      let digits := if c0 = 45 ∨ c0 = 43 then tl else s
      if (c0 = 45 ∨ c0 = 43) ∧ digits.length < 1 then (0, some NumError.ErrSyntax)
      else
        match Atoi.loop digits 0 with
        | none => (0, some NumError.ErrSyntax)
        | some n => (if c0 = 45 then -n else n, none)
  else
    let r := ParseInt s 0
    (toInt64 r.1, r.2)

/-! ## JSON binding of the request body -/

/-- A JSON value as `encoding/json` scans it; a number keeps its literal text. -/
inductive JSON where
  | null
  | bool (b : Bool)
  | number (lit : GoBytes)
  | string (s : String)
  | array (items : List JSON)
  | object (members : List (String × JSON))

/-- A request body: either one JSON value can be read from it, or none can
(no body, empty body, or a syntax error inside the first value). -/
inductive Body where
  | invalid
  | json (v : JSON)

/-- The errors `ShouldBindJSON` can return for the struct `User`. -/
inductive BindError where
  | read
  | unmarshalType
  deriving DecidableEq, Repr

/-- What binding leaves behind: the value now in `newUser`, and the error. -/
abbrev Binder := Body → User → User × Option BindError

/-- Case folding of an object key, as used to match it to a field name. -/
def foldKey (key : String) : String := String.mk (key.data.map Char.toLower)

/-- Storing a JSON value into the `int` field `ID`. -/
def storeID (u : User) : JSON → User × Option BindError
  | JSON.null => (u, none)
  | JSON.number lit =>
    let r := ParseInt lit 64
    if r.2 ≠ none then (u, some BindError.unmarshalType)
    else (⟨r.1, u.Name, u.Email⟩, none)
  | _ => (u, some BindError.unmarshalType)

/-- Storing a JSON value into the `string` field `Name`. -/
def storeName (u : User) : JSON → User × Option BindError
  | JSON.null => (u, none)
  | JSON.string s => (⟨u.ID, s, u.Email⟩, none)
  | _ => (u, some BindError.unmarshalType)

/-- Storing a JSON value into the `string` field `Email`. -/
def storeEmail (u : User) : JSON → User × Option BindError
  | JSON.null => (u, none)
  | JSON.string s => (⟨u.ID, u.Name, s⟩, none)
  | _ => (u, some BindError.unmarshalType)

/-- One member of the object: a key that names no field is skipped; a value
of the wrong type leaves its field alone and decoding goes on.  Only the
earliest error is kept. -/
def decodeMember (acc : User × Option BindError) (m : String × JSON) :
    User × Option BindError :=
  let key := foldKey m.1
  let r :=
    if key = "id" then storeID acc.1 m.2
    else if key = "name" then storeName acc.1 m.2
    else if key = "email" then storeEmail acc.1 m.2
    else (acc.1, none)
  (r.1, if acc.2 ≠ none then acc.2 else r.2)

/-- Decoding one JSON value into a `User`. -/
def decodeUser (u : User) : JSON → User × Option BindError
  | JSON.object members => members.foldl decodeMember (u, none)
  | JSON.null => (u, none)
  | _ => (u, some BindError.unmarshalType)

/-- The call `c.ShouldBindJSON(&newUser)` as `encoding/json` documents it:
a body that holds no JSON value leaves `newUser` untouched; otherwise the
value is decoded field by field.  `User` carries no `binding` tag, so the
validation step that follows never fails. -/
def ShouldBindJSON : Binder
  | Body.invalid, u => (u, some BindError.read)
  | Body.json v, u => decodeUser u v

/-! ## The handlers -/

/-- The loop `for _, user := range users` of `getUserByID`: the response
written inside the loop, or `none` when the loop runs to its end. -/
def getUserByID.loop (userID : Int) : List User → Option Response
  | [] => none
  | user :: rest =>
    if user.ID = userID then some ⟨StatusOK, JSONBody.user user⟩
    else getUserByID.loop userID rest

/-- The handler `getUserByID`; `id` is `c.Param("id")`.  The error of `Atoi`
is discarded and the value it returns is used whatever happened. -/
def getUserByID (st : State) (id : GoBytes) : State × Response :=
  let userID := (Atoi id).1
  match getUserByID.loop userID st.users with
  | some r => (st, r)
  | none => (st, notFound)

/-- The handler `createUser`; the error of the binder is discarded. -/
def createUser (bind : Binder) (st : State) (body : Body) : State × Response :=
  let newUser := (bind body User.zero).1
  (⟨st.users ++ [newUser], st.stdout⟩, ⟨200, JSONBody.user newUser⟩)

/-- The function `validateUser`, with the line it prints. -/
def validateUser (st : State) (user : User) : State × Bool :=
  if user.Name = "" then (⟨st.users, st.stdout ++ ["Name is empty"]⟩, false)
  else if user.Email = "" then (st, false)
  else (st, true)

/-- The two routes registered in `main`. -/
inductive Request where
  | GET (id : GoBytes)
  | POST (body : Body)

/-- Dispatch of one request to its handler. -/
def route (bind : Binder) (st : State) : Request → State × Response
  | Request.GET id => getUserByID st id
  | Request.POST body => createUser bind st body

/-- Requests served one after the other: the final state and the responses. -/
def serve (bind : Binder) (st : State) : List Request → State × List Response
  | [] => (st, [])
  | r :: rest =>
    let a := route bind st r
    let b := serve bind a.1 rest
    (b.1, a.2 :: b.2)

/-- The user a request appends to the slice, if it appends one. -/
def appended (bind : Binder) : Request → Option User
  | Request.GET _ => none
  | Request.POST body => some (bind body User.zero).1

/-- The decimal digits of a natural number, most significant first. -/
def decimal (n : Nat) : GoBytes :=
  if n < 10 then [48 + n] else decimal (n / 10) ++ [48 + n % 10]
decreasing_by omega

/-- The path parameter a client writes for the identifier `n`: its decimal
form, with a leading `-` when negative. -/
def pathOf (n : Int) : GoBytes :=
  if n < 0 then 45 :: decimal n.natAbs else decimal n.natAbs

/-- The state at process start: no user, nothing printed. -/
def State.empty : State := ⟨[], []⟩

/-- The lookup as the specification words it: the first stored user whose
identifier is `userID` with status 200, or the 404 response if there is none. -/
def lookupSpec (users : List User) (userID : Int) : Response :=
  match users.find? (fun u => decide (u.ID = userID)) with
  | some u => ⟨200, JSONBody.user u⟩
  | none => notFound

/-- Whether one JSON value can be read from the body and it is an object. -/
def Body.isObject : Body → Bool
  | Body.json (JSON.object _) => true
  | _ => false

/-- The body `{"id":1,"name":"A","email":"a@x.com"}` of the spec's sequence. -/
def bodyA : Body :=
  Body.json (JSON.object [("id", JSON.number (bytesOf "1")), ("name", JSON.string "A"),
    ("email", JSON.string "a@x.com")])

/-- A body whose `id` has the wrong type: `{"id":"x","name":"A","email":"a@x.com"}`. -/
def bodyBadID : Body :=
  Body.json (JSON.object [("id", JSON.string "x"), ("name", JSON.string "A"),
    ("email", JSON.string "a@x.com")])

/-- The user of the spec's sequence. -/
def userA : User := ⟨1, "A", "a@x.com"⟩

/-- The largest `int` as a user identifier. -/
def userMax : User := ⟨9223372036854775807, "A", "a@x.com"⟩

/-- A body with an identifier only, `{"id":7}`: name and email stay empty. -/
def bodyNoName : Body := Body.json (JSON.object [("id", JSON.number (bytesOf "7"))])

/-- A body with a name but no email: `{"id":1,"name":"B"}`. -/
def bodyNoEmail : Body :=
  Body.json (JSON.object [("id", JSON.number (bytesOf "1")), ("name", JSON.string "B")])

/-! ## Lemmas on the lookup loop -/

theorem loop_nil (userID : Int) : getUserByID.loop userID [] = none := rfl

theorem loop_cons (userID : Int) (user : User) (rest : List User) :
    getUserByID.loop userID (user :: rest) =
      if user.ID = userID then some ⟨StatusOK, JSONBody.user user⟩
      else getUserByID.loop userID rest := rfl

/-- The loop is `List.find?` on the identifier, wrapped as a 200 response. -/
theorem loop_eq_find (userID : Int) (us : List User) :
    getUserByID.loop userID us =
      (us.find? (fun u => decide (u.ID = userID))).map
        (fun u => (⟨StatusOK, JSONBody.user u⟩ : Response)) := by
  induction us with
  | nil => rfl
  | cons user rest ih =>
    rw [loop_cons]
    by_cases h : user.ID = userID
    · simp [h]
    · simp [h, ih]

theorem loop_eq_none_iff (userID : Int) (us : List User) :
    getUserByID.loop userID us = none ↔ ∀ u ∈ us, u.ID ≠ userID := by
  induction us with
  | nil => simp [loop_nil]
  | cons user rest ih =>
    rw [loop_cons]
    by_cases h : user.ID = userID
    · simp [h]
    · simp [h, ih]

theorem loop_append_of_some (userID : Int) (us vs : List User) (r : Response)
    (h : getUserByID.loop userID us = some r) :
    getUserByID.loop userID (us ++ vs) = some r := by
  induction us with
  | nil => simp [loop_nil] at h
  | cons user rest ih =>
    rw [List.cons_append, loop_cons]
    rw [loop_cons] at h
    by_cases hu : user.ID = userID
    · simpa [hu] using h
    · simp only [hu, if_false] at h ⊢
      exact ih h

theorem loop_append_of_none (userID : Int) (us vs : List User)
    (h : getUserByID.loop userID us = none) :
    getUserByID.loop userID (us ++ vs) = getUserByID.loop userID vs := by
  induction us with
  | nil => rfl
  | cons user rest ih =>
    rw [List.cons_append, loop_cons]
    rw [loop_cons] at h
    by_cases hu : user.ID = userID
    · simp [hu] at h
    · simp only [hu, if_false] at h ⊢
      exact ih h

/-- A loop that answers does so with the first element carrying the identifier. -/
theorem loop_first (userID : Int) (us : List User)
    (h : ∃ u ∈ us, u.ID = userID) :
    ∃ (i : Nat) (u : User), us[i]? = some u ∧ u.ID = userID ∧
      (∀ (j : Nat), j < i → ∀ (v : User), us[j]? = some v → v.ID ≠ userID) ∧
      getUserByID.loop userID us = some ⟨StatusOK, JSONBody.user u⟩ := by
  induction us with
  | nil => simp at h
  | cons user rest ih =>
    by_cases hu : user.ID = userID
    · refine ⟨0, user, by simp, hu, ?_, ?_⟩
      · intro j hj; omega
      · rw [loop_cons]; simp [hu]
    · have h2 : ∃ u ∈ rest, u.ID = userID := by
        obtain ⟨u, hmem, hid⟩ := h
        rcases List.mem_cons.mp hmem with heq | hin
        · subst heq; exact absurd hid hu
        · exact ⟨u, hin, hid⟩
      obtain ⟨i, u, hget, hid, hmin, hloop⟩ := ih h2
      refine ⟨i + 1, u, by simpa using hget, hid, ?_, ?_⟩
      · intro j hj v hv
        cases j with
        | zero =>
          simp at hv
          subst hv
          exact hu
        | succ k =>
          simp at hv
          exact hmin k (by omega) v hv
      · rw [loop_cons]; simp [hu, hloop]

/-- The response of `getUserByID` in terms of its loop. -/
theorem getUserByID_response (st : State) (id : GoBytes) :
    (getUserByID st id).2 = (getUserByID.loop (Atoi id).1 st.users).getD notFound := by
  unfold getUserByID
  cases h : getUserByID.loop (Atoi id).1 st.users <;> simp [h]

theorem getUserByID_state (st : State) (id : GoBytes) : (getUserByID st id).1 = st := by
  unfold getUserByID
  cases h : getUserByID.loop (Atoi id).1 st.users <;> simp [h]

theorem loop_some_ne_notFound (userID : Int) (us : List User) (r : Response)
    (h : getUserByID.loop userID us = some r) : r.status = StatusOK := by
  rw [loop_eq_find] at h
  cases hf : us.find? (fun u => decide (u.ID = userID)) with
  | none => simp [hf] at h
  | some u =>
    simp [hf] at h
    rw [← h]

/-! ## Lemmas on sequences of requests -/

theorem route_users (bind : Binder) (st : State) (r : Request) :
    (route bind st r).1.users = st.users ++ (appended bind r).toList := by
  cases r with
  | GET id => simp [route, getUserByID_state, appended]
  | POST body => simp [route, createUser, appended]

theorem serve_users (bind : Binder) (st : State) (reqs : List Request) :
    (serve bind st reqs).1.users = st.users ++ reqs.filterMap (appended bind) := by
  induction reqs generalizing st with
  | nil => simp [serve]
  | cons r rest ih =>
    simp only [serve]
    rw [ih, route_users]
    cases h : appended bind r <;> simp [List.filterMap_cons, h]

theorem serve_append (bind : Binder) (st : State) (r1 r2 : List Request) :
    (serve bind st (r1 ++ r2)).1 = (serve bind (serve bind st r1).1 r2).1 := by
  induction r1 generalizing st with
  | nil => simp [serve]
  | cons r rest ih => simp only [List.cons_append, serve]; exact ih _

/-! ## Lemmas on `strconv` -/

theorem ParseUint_loop_syntaxErr (cutoff maxVal : Nat) (s : GoBytes) (n : Nat)
    (h : (ParseUint.loop cutoff maxVal s n).2 = some NumError.ErrSyntax) :
    (ParseUint.loop cutoff maxVal s n).1 = 0 := by
  induction s generalizing n with
  | nil => simp [ParseUint.loop] at h
  | cons c rest ih =>
    rw [ParseUint.loop] at h ⊢
    cases hd : digitValue c with
    | none => rfl
    | some d =>
      simp only [hd] at h ⊢
      split_ifs at h ⊢ with h1 h2 h3
      · rfl
      · simp at h
      · simp at h
      · exact ih _ h

theorem ParseInt_syntaxErr (s : GoBytes) (bitSize : Nat)
    (h : (ParseInt s bitSize).2 = some NumError.ErrSyntax) : (ParseInt s bitSize).1 = 0 := by
  unfold ParseInt at h ⊢
  split
  · rfl
  · simp only at h ⊢
    generalize ParseUint _ bitSize = r at h ⊢
    by_cases h1 : r.2 ≠ none ∧ r.2 ≠ some NumError.ErrRange
    · rw [if_pos h1]
    · rw [if_neg h1] at h
      split_ifs at h <;> simp at h

theorem ParseInt_rangeErr (s : GoBytes)
    (h : (ParseInt s 0).2 = some NumError.ErrRange) :
    (ParseInt s 0).1 = 2 ^ 63 - 1 ∨ (ParseInt s 0).1 = -2 ^ 63 := by
  unfold ParseInt at h ⊢
  split
  · simp at h
  · simp only at h ⊢
    generalize ParseUint _ 0 = r at h ⊢
    by_cases h1 : r.2 ≠ none ∧ r.2 ≠ some NumError.ErrRange
    · rw [if_pos h1] at h
      exact absurd h h1.2
    · rw [if_neg h1] at h ⊢
      split_ifs at h ⊢ <;>
        first
        | (left; norm_num [intSize]; done)
        | (right; norm_num [intSize])

theorem Atoi_syntaxErr (s : GoBytes) (h : (Atoi s).2 = some NumError.ErrSyntax) :
    (Atoi s).1 = 0 := by
  unfold Atoi at h ⊢
  simp only at h ⊢
  split_ifs at h ⊢ with h1
  · cases s with
    | nil => rfl
    | cons c0 tl =>
      simp only at h ⊢
      generalize (if c0 = 45 ∨ c0 = 43 then tl else c0 :: tl) = digits at h ⊢
      by_cases h2 : (c0 = 45 ∨ c0 = 43) ∧ digits.length < 1
      · rw [if_pos h2]
      · rw [if_neg h2] at h ⊢
        cases hl : Atoi.loop digits 0 with
        | none => rfl
        | some n => simp [hl] at h
  · rw [ParseInt_syntaxErr s 0 h]
    show toInt64 0 = 0
    decide

theorem Atoi_rangeErr (s : GoBytes) (h : (Atoi s).2 = some NumError.ErrRange) :
    (Atoi s).1 = 2 ^ 63 - 1 ∨ (Atoi s).1 = -2 ^ 63 := by
  unfold Atoi at h ⊢
  simp only at h ⊢
  split_ifs at h ⊢ with h1
  · cases s with
    | nil => simp at h
    | cons c0 tl =>
      simp only at h
      generalize (if c0 = 45 ∨ c0 = 43 then tl else c0 :: tl) = digits at h
      by_cases h2 : (c0 = 45 ∨ c0 = 43) ∧ digits.length < 1
      · rw [if_pos h2] at h; simp at h
      · rw [if_neg h2] at h
        cases hl : Atoi.loop digits 0 with
        | none => simp [hl] at h
        | some n => simp [hl] at h
  · rcases ParseInt_rangeErr s h with hr | hr
    · left; rw [hr]; show toInt64 (2 ^ 63 - 1) = 2 ^ 63 - 1; decide
    · right; rw [hr]; show toInt64 (-2 ^ 63) = -2 ^ 63; decide

/-! ## Every `int` is the value of some path parameter -/

theorem decimal_ne_nil (n : Nat) : decimal n ≠ [] := by
  rw [decimal]
  split_ifs <;> simp

theorem decimal_digits (n : Nat) : ∀ c ∈ decimal n, 48 ≤ c ∧ c ≤ 57 := by
  induction n using Nat.strong_induction_on with
  | _ n ih =>
    rw [decimal]
    split_ifs with h
    · intro c hc
      simp at hc
      omega
    · intro c hc
      rcases List.mem_append.mp hc with h1 | h1
      · exact ih (n / 10) (by omega) c h1
      · simp at h1
        omega

theorem Atoi_loop_append (xs ys : GoBytes) (acc : Int) :
    Atoi.loop (xs ++ ys) acc = (Atoi.loop xs acc).bind (Atoi.loop ys) := by
  induction xs generalizing acc with
  | nil => rfl
  | cons c rest ih =>
    simp only [List.cons_append, Atoi.loop]
    split_ifs
    · rfl
    · exact ih _

theorem Atoi_loop_digit (d : Nat) (hd : d < 10) (acc : Int) :
    Atoi.loop [48 + d] acc = some (acc * 10 + (d : Int)) := by
  have h : (48 + d + 256 - 48) % 256 = d := by omega
  simp only [Atoi.loop, h]
  rw [if_neg (by omega)]

theorem Atoi_loop_decimal (n : Nat) : Atoi.loop (decimal n) 0 = some (n : Int) := by
  induction n using Nat.strong_induction_on with
  | _ n ih =>
    rw [decimal]
    split_ifs with h
    · rw [Atoi_loop_digit n h]; simp
    · rw [Atoi_loop_append, ih (n / 10) (by omega)]
      simp only [Option.bind]
      rw [Atoi_loop_digit _ (Nat.mod_lt n (by norm_num))]
      congr 1
      omega

theorem digitValue_digit (d : Nat) (hd : d < 10) : digitValue (48 + d) = some d := by
  unfold digitValue
  rw [if_pos (by omega)]
  congr 1
  omega

theorem ParseUint_loop_append (cutoff maxVal : Nat) (xs ys : GoBytes) (acc : Nat)
    (h : (ParseUint.loop cutoff maxVal xs acc).2 = none) :
    ParseUint.loop cutoff maxVal (xs ++ ys) acc =
      ParseUint.loop cutoff maxVal ys (ParseUint.loop cutoff maxVal xs acc).1 := by
  induction xs generalizing acc with
  | nil => rfl
  | cons c rest ih =>
    simp only [List.cons_append, ParseUint.loop] at h ⊢
    cases hd : digitValue c with
    | none => simp only [hd] at h; cases h
    | some d =>
      simp only [hd] at h ⊢
      split_ifs at h ⊢
      all_goals exact ih _ h

theorem ParseUint_loop_digit (d acc : Nat) (hd : d < 10) (hacc : acc * 10 + d < 2 ^ 64) :
    ParseUint.loop (maxUint64 / 10 + 1) (2 ^ 64 - 1) [48 + d] acc = (acc * 10 + d, none) := by
  rw [ParseUint.loop, digitValue_digit d hd]
  simp only [maxUint64]
  rw [if_neg (by omega), if_neg (by omega)]
  have h1 : acc * 10 % 2 ^ 64 = acc * 10 := Nat.mod_eq_of_lt (by omega)
  have h2 : (acc * 10 + d) % 2 ^ 64 = acc * 10 + d := Nat.mod_eq_of_lt hacc
  rw [h1, h2, if_neg (by omega)]
  rfl

theorem ParseUint_loop_decimal (n : Nat) (hn : n < 2 ^ 64) :
    ParseUint.loop (maxUint64 / 10 + 1) (2 ^ 64 - 1) (decimal n) 0 = (n, none) := by
  induction n using Nat.strong_induction_on with
  | _ n ih =>
    rw [decimal]
    split_ifs with h
    · rw [ParseUint_loop_digit n 0 h (by omega)]; simp
    · have hq := ih (n / 10) (by omega) (by omega)
      rw [ParseUint_loop_append _ _ _ _ _ (by rw [hq]), hq]
      rw [ParseUint_loop_digit (n % 10) (n / 10) (Nat.mod_lt n (by norm_num)) (by omega)]
      congr 1
      omega

theorem ParseUint_decimal (n : Nat) (hn : n < 2 ^ 64) :
    ParseUint (decimal n) 0 = (n, none) := by
  unfold ParseUint
  rw [if_neg (decimal_ne_nil n)]
  simp only [intSize, if_true]
  exact ParseUint_loop_decimal n hn

theorem toInt64_of_range (x : Int) (hlo : -2 ^ 63 ≤ x) (hhi : x < 2 ^ 63) : toInt64 x = x := by
  unfold toInt64
  omega

theorem cutoff_val : (2 : Nat) ^ (intSize - 1) = 9223372036854775808 := by
  norm_num [intSize]

theorem ParseInt_of_ParseUint (c0 : Nat) (tl digits : GoBytes) (neg : Bool) (un : Nat)
    (hdigits : (if c0 = 43 then tl else if c0 = 45 then tl else c0 :: tl) = digits)
    (hneg : decide (c0 ≠ 43 ∧ c0 = 45) = neg)
    (hr : ParseUint digits 0 = (un, none))
    (h1 : ¬ (neg = false ∧ un ≥ 9223372036854775808))
    (h2 : ¬ (neg = true ∧ un > 9223372036854775808)) :
    ParseInt (c0 :: tl) 0 =
      (if neg = true then toInt64 (-(toInt64 (un : Int))) else toInt64 (un : Int), none) := by
  unfold ParseInt
  simp only [hdigits, hneg, hr]
  have ha : ¬ ((none : Option NumError) ≠ none ∧
      (none : Option NumError) ≠ some NumError.ErrRange) := fun h => h.1 rfl
  rw [if_neg ha]
  simp only [if_true]
  rw [cutoff_val, if_neg h1, if_neg h2]

theorem ParseInt_neg_decimal (m : Nat) (hm : m ≤ 2 ^ 63) :
    ParseInt (45 :: decimal m) 0 = (-(m : Int), none) := by
  have e1 : (if (45 : Nat) = 43 then decimal m else if (45 : Nat) = 45 then decimal m
      else 45 :: decimal m) = decimal m := by simp
  have e2 : decide ((45 : Nat) ≠ 43 ∧ (45 : Nat) = 45) = true := by decide
  have e3 : ParseUint (decimal m) 0 = (m, none) := ParseUint_decimal m (by omega)
  have e4 : ¬ (true = false ∧ m ≥ 9223372036854775808) := by simp
  have e5 : ¬ (true = true ∧ m > 9223372036854775808) := by omega
  have key := ParseInt_of_ParseUint 45 (decimal m) (decimal m) true m e1 e2 e3 e4 e5
  rw [key]
  simp only [if_true]
  have hval : toInt64 (-toInt64 (m : Int)) = -(m : Int) := by
    unfold toInt64
    omega
  rw [hval]

theorem ParseInt_pos_decimal (m : Nat) (hm : m < 2 ^ 63) :
    ParseInt (decimal m) 0 = ((m : Int), none) := by
  cases hdec : decimal m with
  | nil => exact absurd hdec (decimal_ne_nil m)
  | cons c0 tl =>
    have hc0 : 48 ≤ c0 ∧ c0 ≤ 57 := decimal_digits m c0 (by rw [hdec]; simp)
    have h43 : ¬ c0 = 43 := by omega
    have h45 : ¬ c0 = 45 := by omega
    have e1 : (if c0 = 43 then tl else if c0 = 45 then tl else c0 :: tl) = decimal m := by
      rw [if_neg h43, if_neg h45, hdec]
    have e2 : decide (c0 ≠ 43 ∧ c0 = 45) = false := by simp [h45]
    have e3 : ParseUint (decimal m) 0 = (m, none) := ParseUint_decimal m (by omega)
    have e4 : ¬ (false = false ∧ m ≥ 9223372036854775808) := by omega
    have e5 : ¬ (false = true ∧ m > 9223372036854775808) := by simp
    have key := ParseInt_of_ParseUint c0 tl (decimal m) false m e1 e2 e3 e4 e5
    rw [key]
    simp only [Bool.false_eq_true, if_false]
    have hval : toInt64 (m : Int) = (m : Int) := by
      unfold toInt64
      omega
    rw [hval]

theorem Atoi_slow (s : GoBytes)
    (hslow : ¬ ((intSize = 32 ∧ (0 < s.length ∧ s.length < 10)) ∨
      (intSize = 64 ∧ (0 < s.length ∧ s.length < 19)))) :
    Atoi s = (toInt64 (ParseInt s 0).1, (ParseInt s 0).2) := by
  unfold Atoi
  simp only
  rw [if_neg hslow]

theorem Atoi_fast (c0 : Nat) (tl digits : GoBytes) (n : Int)
    (hfast : (intSize = 32 ∧ (0 < (c0 :: tl).length ∧ (c0 :: tl).length < 10)) ∨
      (intSize = 64 ∧ (0 < (c0 :: tl).length ∧ (c0 :: tl).length < 19)))
    (hdigits : (if c0 = 45 ∨ c0 = 43 then tl else c0 :: tl) = digits)
    (hne : ¬ digits.length < 1)
    (hloop : Atoi.loop digits 0 = some n) :
    Atoi (c0 :: tl) = (if c0 = 45 then -n else n, none) := by
  unfold Atoi
  simp only
  rw [if_pos hfast]
  simp only [hdigits]
  rw [if_neg (fun h => hne h.2)]
  simp only [hloop]

/-- Every `int` is reached: `Atoi` converts the decimal form of `n` to `n`
without error, for every `n` in the 64-bit range. -/
theorem Atoi_pathOf (n : Int) (hlo : -2 ^ 63 ≤ n) (hhi : n < 2 ^ 63) :
    Atoi (pathOf n) = (n, none) := by
  have hne : ¬ (decimal n.natAbs).length < 1 := by
    cases hd : decimal n.natAbs with
    | nil => exact absurd hd (decimal_ne_nil _)
    | cons a b => simp
  unfold pathOf
  by_cases hneg : n < 0
  · rw [if_pos hneg]
    have hm : -(n.natAbs : Int) = n := by omega
    by_cases hfast : (intSize = 32 ∧ (0 < (45 :: decimal n.natAbs).length ∧
        (45 :: decimal n.natAbs).length < 10)) ∨
        (intSize = 64 ∧ (0 < (45 :: decimal n.natAbs).length ∧
        (45 :: decimal n.natAbs).length < 19))
    · rw [Atoi_fast 45 (decimal n.natAbs) (decimal n.natAbs) (n.natAbs : Int) hfast
        (by simp) hne (Atoi_loop_decimal _)]
      simp only [if_true]
      rw [hm]
    · rw [Atoi_slow _ hfast, ParseInt_neg_decimal n.natAbs (by omega)]
      simp only
      rw [hm, toInt64_of_range n hlo hhi]
  · rw [if_neg hneg]
    have hm : (n.natAbs : Int) = n := by omega
    by_cases hfast : (intSize = 32 ∧ (0 < (decimal n.natAbs).length ∧
        (decimal n.natAbs).length < 10)) ∨
        (intSize = 64 ∧ (0 < (decimal n.natAbs).length ∧
        (decimal n.natAbs).length < 19))
    · cases hdec : decimal n.natAbs with
      | nil => exact absurd hdec (decimal_ne_nil _)
      | cons c0 tl =>
        have hc0 : 48 ≤ c0 ∧ c0 ≤ 57 := decimal_digits _ c0 (by rw [hdec]; simp)
        have h45 : ¬ c0 = 45 := by omega
        have h43 : ¬ c0 = 43 := by omega
        rw [hdec] at hfast hne
        have hloop : Atoi.loop (c0 :: tl) 0 = some (n.natAbs : Int) := by
          rw [← hdec]
          exact Atoi_loop_decimal _
        rw [Atoi_fast c0 tl (c0 :: tl) (n.natAbs : Int) hfast
          (by rw [if_neg (by omega)]) hne hloop]
        rw [if_neg h45, hm]
    · rw [Atoi_slow _ hfast, ParseInt_pos_decimal n.natAbs (by omega)]
      simp only
      rw [hm, toInt64_of_range n hlo hhi]

theorem getUserByID_eq_lookupSpec (st : State) (id : GoBytes) :
    (getUserByID st id).2 = lookupSpec st.users (Atoi id).1 := by
  rw [getUserByID_response, loop_eq_find]
  unfold lookupSpec
  cases st.users.find? (fun u => decide (u.ID = (Atoi id).1)) <;> simp [StatusOK]

theorem getUserByID_ok_loop (st : State) (id : GoBytes) (u : User)
    (h : (getUserByID st id).2 = ⟨200, JSONBody.user u⟩) :
    getUserByID.loop (Atoi id).1 st.users = some ⟨200, JSONBody.user u⟩ := by
  rw [getUserByID_response] at h
  cases hl : getUserByID.loop (Atoi id).1 st.users with
  | none =>
    rw [hl] at h
    simp [notFound] at h
  | some r =>
    rw [hl] at h
    simpa using h

/-! ## The claims -/

/-- C1: Create-then-Lookup round trip.  If binding leaves the user `u` in
`newUser` and no stored user has the identifier `u.ID`, then `createUser`
turns the store into `s ++ [u]`, and `getUserByID` on a path parameter that
converts to `u.ID` answers 200 with exactly `u`; the decimal form of `u.ID`
is such a parameter whenever `u.ID` is an `int`. -/
theorem create_then_lookup_roundtrip (bind : Binder) (st : State) (body : Body)
    (id : GoBytes) (u : User)
    (hu : (bind body User.zero).1 = u)
    (hfresh : ∀ v ∈ st.users, v.ID ≠ u.ID)
    (hid : (Atoi id).1 = u.ID) :
    (createUser bind st body).1.users = st.users ++ [u] ∧
    (getUserByID (createUser bind st body).1 id).2 = ⟨200, JSONBody.user u⟩ ∧
    (-2 ^ 63 ≤ u.ID → u.ID < 2 ^ 63 →
      (getUserByID (createUser bind st body).1 (pathOf u.ID)).2 = ⟨200, JSONBody.user u⟩) := by
  have hstore : (createUser bind st body).1.users = st.users ++ [u] := by
    simp [createUser, hu]
  have key : ∀ raw : GoBytes, (Atoi raw).1 = u.ID →
      (getUserByID (createUser bind st body).1 raw).2 = ⟨200, JSONBody.user u⟩ := by
    intro raw hraw
    rw [getUserByID_response, hstore, hraw]
    have hnone : getUserByID.loop u.ID st.users = none :=
      (loop_eq_none_iff u.ID st.users).2 hfresh
    rw [loop_append_of_none u.ID st.users [u] hnone, loop_cons]
    simp [StatusOK]
  exact ⟨hstore, key id hid, fun hlo hhi => key _ (by rw [Atoi_pathOf u.ID hlo hhi])⟩

/-- Witness of C1: the sequence of the specification.  From the empty store,
`POST /users` with the body of user A answers 200 with A, then `GET /users/1`
answers 200 with A, and `GET /users/2` answers 404. -/
theorem create_then_lookup_roundtrip_witness :
    ((ShouldBindJSON bodyA User.zero).1 = userA ∧
      (∀ v ∈ State.empty.users, v.ID ≠ userA.ID) ∧
      (Atoi (bytesOf "1")).1 = userA.ID) ∧
    ((createUser ShouldBindJSON State.empty bodyA).1.users = State.empty.users ++ [userA] ∧
      (getUserByID (createUser ShouldBindJSON State.empty bodyA).1 (bytesOf "1")).2 =
        ⟨200, JSONBody.user userA⟩ ∧
      (-2 ^ 63 ≤ userA.ID → userA.ID < 2 ^ 63 →
        (getUserByID (createUser ShouldBindJSON State.empty bodyA).1 (pathOf userA.ID)).2 =
          ⟨200, JSONBody.user userA⟩)) ∧
    (serve ShouldBindJSON State.empty
        [Request.POST bodyA, Request.GET (bytesOf "1"), Request.GET (bytesOf "2")]).2 =
      [⟨200, JSONBody.user userA⟩, ⟨200, JSONBody.user userA⟩, notFound] :=
  ⟨⟨by decide, by decide, by decide⟩,
    create_then_lookup_roundtrip ShouldBindJSON State.empty bodyA (bytesOf "1") userA
      (by decide) (by decide) (by decide),
    by decide⟩

/-- C2: Lookup returns the first match in insertion order.  If some stored
user has the identifier the path parameter converts to, `getUserByID`
answers 200 with the user at the smallest index carrying that identifier;
and after two Creates with the same identifier, none being stored before,
Lookup answers with the earlier-created user, never with a different later
one.  The same holds for every `int` as identifier, written in decimal. -/
theorem lookup_first_match (bind : Binder) (st : State) (id : GoBytes) (b1 b2 : Body) :
    ((∃ u ∈ st.users, u.ID = (Atoi id).1) →
      ∃ (i : Nat) (u : User), st.users[i]? = some u ∧ u.ID = (Atoi id).1 ∧
        (∀ (j : Nat), j < i → ∀ (v : User), st.users[j]? = some v → v.ID ≠ (Atoi id).1) ∧
        (getUserByID st id).2 = ⟨200, JSONBody.user u⟩) ∧
    ((∀ v ∈ st.users, v.ID ≠ (Atoi id).1) →
      (bind b1 User.zero).1.ID = (Atoi id).1 →
      (bind b2 User.zero).1.ID = (Atoi id).1 →
      (getUserByID (createUser bind (createUser bind st b1).1 b2).1 id).2 =
          ⟨200, JSONBody.user (bind b1 User.zero).1⟩ ∧
        ((bind b2 User.zero).1 ≠ (bind b1 User.zero).1 →
          (getUserByID (createUser bind (createUser bind st b1).1 b2).1 id).2 ≠
            ⟨200, JSONBody.user (bind b2 User.zero).1⟩)) ∧
    (∀ (n : Int), -2 ^ 63 ≤ n → n < 2 ^ 63 → (∃ u ∈ st.users, u.ID = n) →
      ∃ (i : Nat) (u : User), st.users[i]? = some u ∧ u.ID = n ∧
        (∀ (j : Nat), j < i → ∀ (v : User), st.users[j]? = some v → v.ID ≠ n) ∧
        (getUserByID st (pathOf n)).2 = ⟨200, JSONBody.user u⟩) := by
  have first : ∀ raw : GoBytes, (∃ u ∈ st.users, u.ID = (Atoi raw).1) →
      ∃ (i : Nat) (u : User), st.users[i]? = some u ∧ u.ID = (Atoi raw).1 ∧
        (∀ (j : Nat), j < i → ∀ (v : User), st.users[j]? = some v → v.ID ≠ (Atoi raw).1) ∧
        (getUserByID st raw).2 = ⟨200, JSONBody.user u⟩ := by
    intro raw h
    obtain ⟨i, u, hget, hid, hmin, hloop⟩ := loop_first (Atoi raw).1 st.users h
    refine ⟨i, u, hget, hid, hmin, ?_⟩
    rw [getUserByID_response, hloop]
    rfl
  refine ⟨first id, ?_, ?_⟩
  · intro hfresh h1 h2
    have hresp : (getUserByID (createUser bind (createUser bind st b1).1 b2).1 id).2 =
        ⟨200, JSONBody.user (bind b1 User.zero).1⟩ := by
      rw [getUserByID_response]
      have hstore : (createUser bind (createUser bind st b1).1 b2).1.users =
          st.users ++ ((bind b1 User.zero).1 :: [(bind b2 User.zero).1]) := by
        simp [createUser]
      rw [hstore]
      have hnone : getUserByID.loop (Atoi id).1 st.users = none :=
        (loop_eq_none_iff _ st.users).2 hfresh
      rw [loop_append_of_none _ st.users _ hnone, loop_cons]
      simp [h1, StatusOK]
    refine ⟨hresp, ?_⟩
    intro hne heq
    rw [hresp] at heq
    simp at heq
    exact hne heq.symm
  · intro n hlo hhi h
    have hn : (Atoi (pathOf n)).1 = n := by rw [Atoi_pathOf n hlo hhi]
    have := first (pathOf n) (by rw [hn]; exact h)
    rw [hn] at this
    exact this

/-- Witness of C2: with users 7, 1 (A), 1 (B) stored in this order, `GET
/users/1` answers with A at index 1; and from the empty store two Creates
with identifier 1 make Lookup answer with the first. -/
theorem lookup_first_match_witness :
    (∃ (i : Nat) (u : User),
        (State.mk [⟨7, "", ""⟩, userA, ⟨1, "B", ""⟩] []).users[i]? = some u ∧
        u.ID = (Atoi (bytesOf "1")).1 ∧
        (∀ (j : Nat), j < i → ∀ (v : User),
          (State.mk [⟨7, "", ""⟩, userA, ⟨1, "B", ""⟩] []).users[j]? = some v →
            v.ID ≠ (Atoi (bytesOf "1")).1) ∧
        (getUserByID (State.mk [⟨7, "", ""⟩, userA, ⟨1, "B", ""⟩] []) (bytesOf "1")).2 =
          ⟨200, JSONBody.user u⟩) ∧
    (getUserByID (createUser ShouldBindJSON (createUser ShouldBindJSON State.empty bodyA).1
        bodyNoEmail).1 (bytesOf "1")).2 = ⟨200, JSONBody.user userA⟩ :=
  ⟨(lookup_first_match ShouldBindJSON (State.mk [⟨7, "", ""⟩, userA, ⟨1, "B", ""⟩] [])
      (bytesOf "1") bodyA bodyNoEmail).1 ⟨userA, by decide, by decide⟩,
    ((lookup_first_match ShouldBindJSON State.empty (bytesOf "1") bodyA bodyNoEmail).2.1
      (by decide) (by decide) (by decide)).1⟩

/-- C3: NotFound exactly when absent.  `getUserByID` answers 404 with the
body `error: not found` if and only if no stored user has the identifier the
path parameter converts to, and its status is 404 in exactly that case; in
particular, starting from an empty store, a Lookup on an identifier that no
Create request before it carried answers 404 with that body.  The same
equivalence holds for every `int` as identifier, written in decimal. -/
theorem not_found_iff_absent (bind : Binder) (st : State) (id : GoBytes)
    (out : List String) (reqs : List Request) :
    ((getUserByID st id).2 = ⟨404, JSONBody.H [("error", "not found")]⟩ ↔
      ∀ u ∈ st.users, u.ID ≠ (Atoi id).1) ∧
    ((getUserByID st id).2.status = 404 ↔ ∀ u ∈ st.users, u.ID ≠ (Atoi id).1) ∧
    ((∀ body, Request.POST body ∈ reqs → (bind body User.zero).1.ID ≠ (Atoi id).1) →
      (getUserByID (serve bind ⟨[], out⟩ reqs).1 id).2 =
        ⟨404, JSONBody.H [("error", "not found")]⟩) ∧
    (∀ (n : Int), -2 ^ 63 ≤ n → n < 2 ^ 63 →
      ((getUserByID st (pathOf n)).2 = ⟨404, JSONBody.H [("error", "not found")]⟩ ↔
        ∀ u ∈ st.users, u.ID ≠ n)) := by
  have key : ∀ (s : State) (raw : GoBytes), (∀ u ∈ s.users, u.ID ≠ (Atoi raw).1) →
      (getUserByID s raw).2 = ⟨404, JSONBody.H [("error", "not found")]⟩ := by
    intro s raw h
    rw [getUserByID_response, (loop_eq_none_iff _ _).2 h]
    rfl
  have back : ∀ raw : GoBytes, (getUserByID st raw).2.status = 404 →
      ∀ u ∈ st.users, u.ID ≠ (Atoi raw).1 := by
    intro raw h
    rw [getUserByID_response] at h
    cases hl : getUserByID.loop (Atoi raw).1 st.users with
    | none => exact (loop_eq_none_iff _ _).1 hl
    | some r =>
      rw [hl] at h
      have h200 := loop_some_ne_notFound _ _ _ hl
      simp [StatusOK] at h h200
      omega
  refine ⟨⟨fun h => back id (by rw [h]), key st id⟩,
    ⟨back id, fun h => by rw [key st id h]⟩, ?_, ?_⟩
  rotate_left
  · intro n hlo hhi
    have hn : (Atoi (pathOf n)).1 = n := by rw [Atoi_pathOf n hlo hhi]
    constructor
    · intro h
      have := back (pathOf n) (by rw [h])
      rw [hn] at this
      exact this
    · intro h
      exact key st (pathOf n) (by rw [hn]; exact h)
  intro hreqs
  apply key
  intro u hu
  rw [serve_users] at hu
  simp only [List.nil_append, List.mem_filterMap] at hu
  obtain ⟨r, hr, hap⟩ := hu
  cases r with
  | GET x => simp [appended] at hap
  | POST body =>
    simp only [appended, Option.some.injEq] at hap
    rw [← hap]
    exact hreqs body hr

/-- Witness of C3: after user A is created in an empty store, `GET /users/2`
answers 404 with the literal body, and `GET /users/1` does not. -/
theorem not_found_iff_absent_witness :
    (getUserByID (State.mk [userA] []) (bytesOf "2")).2 =
        ⟨404, JSONBody.H [("error", "not found")]⟩ ∧
    (getUserByID (serve ShouldBindJSON ⟨[], []⟩
        [Request.POST bodyA, Request.GET (bytesOf "1")]).1 (bytesOf "2")).2 =
        ⟨404, JSONBody.H [("error", "not found")]⟩ ∧
    ¬ (∀ u ∈ (State.mk [userA] []).users, u.ID ≠ (Atoi (bytesOf "1")).1) :=
  ⟨(not_found_iff_absent ShouldBindJSON (State.mk [userA] []) (bytesOf "2") [] []).1.2
      (by decide),
    (not_found_iff_absent ShouldBindJSON (State.mk [userA] []) (bytesOf "2") []
      [Request.POST bodyA, Request.GET (bytesOf "1")]).2.2.1
      (by
        intro body hmem
        simp only [List.mem_cons, List.mem_singleton, List.not_mem_nil, or_false] at hmem
        rcases hmem with h | h
        · cases h
          decide
        · cases h),
    by decide⟩

/-- C4: Create never rejects.  Whatever the store and whatever user `u`
binding leaves in `newUser` (empty name, empty email and an identifier that
is already stored included), `createUser` answers status 200 with `u`, and
it does so whichever value `validateUser` gives on `u`. -/
theorem create_never_rejects (bind : Binder) (st : State) (body : Body) (u : User)
    (hu : (bind body User.zero).1 = u) :
    (createUser bind st body).2 = ⟨200, JSONBody.user u⟩ ∧
    (createUser bind st body).2.status = 200 ∧
    (∀ ok : Bool, (validateUser st u).2 = ok →
      (createUser bind st body).2 = ⟨200, JSONBody.user u⟩) := by
  have h : (createUser bind st body).2 = ⟨200, JSONBody.user u⟩ := by
    simp [createUser, hu]
  exact ⟨h, by rw [h], fun _ _ => h⟩

/-- Witness of C4: a user with empty name and email, a user with an empty
email, and a user whose identifier is already stored are all answered with
status 200 and echoed, although `validateUser` is false on the first two. -/
theorem create_never_rejects_witness :
    ((ShouldBindJSON bodyNoName User.zero).1 = ⟨7, "", ""⟩ ∧
      (validateUser State.empty ⟨7, "", ""⟩).2 = false ∧
      (createUser ShouldBindJSON State.empty bodyNoName).2 =
        ⟨200, JSONBody.user ⟨7, "", ""⟩⟩) ∧
    ((ShouldBindJSON bodyNoEmail User.zero).1 = ⟨1, "B", ""⟩ ∧
      (validateUser State.empty ⟨1, "B", ""⟩).2 = false ∧
      (createUser ShouldBindJSON State.empty bodyNoEmail).2 =
        ⟨200, JSONBody.user ⟨1, "B", ""⟩⟩) ∧
    ((ShouldBindJSON bodyA User.zero).1 = userA ∧
      userA ∈ (State.mk [userA] []).users ∧
      (createUser ShouldBindJSON (State.mk [userA] []) bodyA).2 =
        ⟨200, JSONBody.user userA⟩) :=
  ⟨⟨by decide, by decide,
      (create_never_rejects ShouldBindJSON State.empty bodyNoName ⟨7, "", ""⟩ (by decide)).1⟩,
    ⟨by decide, by decide,
      (create_never_rejects ShouldBindJSON State.empty bodyNoEmail ⟨1, "B", ""⟩
        (by decide)).2.2 false (by decide)⟩,
    ⟨by decide, by decide,
      (create_never_rejects ShouldBindJSON (State.mk [userA] []) bodyA userA (by decide)).1⟩⟩

/-- C5: the store is mutated by appends only.  After `createUser` the store
is exactly `s ++ [u]`: one element longer, every old index keeps its value,
`u` is last.  Over any sequence of Create and Lookup requests, the store
after the first part of the sequence is a prefix of the store after the
whole of it, so an element once stored keeps its index and value. -/
theorem store_append_only (bind : Binder) (st : State) (body : Body)
    (reqs1 reqs2 : List Request) :
    (createUser bind st body).1.users = st.users ++ [(bind body User.zero).1] ∧
    (createUser bind st body).1.users.length = st.users.length + 1 ∧
    (∀ (i : Nat) (v : User), st.users[i]? = some v →
      (createUser bind st body).1.users[i]? = some v) ∧
    (createUser bind st body).1.users[st.users.length]? = some (bind body User.zero).1 ∧
    (serve bind st reqs1).1.users <+: (serve bind st (reqs1 ++ reqs2)).1.users ∧
    (∀ (i : Nat) (v : User), (serve bind st reqs1).1.users[i]? = some v →
      (serve bind st (reqs1 ++ reqs2)).1.users[i]? = some v) := by
  have hstore : (createUser bind st body).1.users = st.users ++ [(bind body User.zero).1] := by
    simp [createUser]
  have hserve : (serve bind st (reqs1 ++ reqs2)).1.users =
      (serve bind st reqs1).1.users ++ reqs2.filterMap (appended bind) := by
    rw [serve_append, serve_users bind (serve bind st reqs1).1 reqs2]
  refine ⟨hstore, ?_, ?_, ?_, ?_, ?_⟩
  · rw [hstore]; simp
  · intro i v hv
    rw [hstore]
    have hi : i < st.users.length := by
      rcases Nat.lt_or_ge i st.users.length with h | h
      · exact h
      · rw [List.getElem?_eq_none h] at hv
        cases hv
    rw [List.getElem?_append_left hi]
    exact hv
  · rw [hstore]
    simp
  · rw [hserve]
    exact ⟨_, rfl⟩
  · intro i v hv
    rw [hserve]
    have hi : i < (serve bind st reqs1).1.users.length := by
      rcases Nat.lt_or_ge i (serve bind st reqs1).1.users.length with h | h
      · exact h
      · rw [List.getElem?_eq_none h] at hv
        cases hv
    rw [List.getElem?_append_left hi]
    exact hv

/-- Witness of C5: with A stored, creating the user 7 gives the store A, 7;
A stays at index 0 there and also after a Lookup and a further Create. -/
theorem store_append_only_witness :
    (createUser ShouldBindJSON (State.mk [userA] []) bodyNoName).1.users =
      [userA, ⟨7, "", ""⟩] ∧
    (createUser ShouldBindJSON (State.mk [userA] []) bodyNoName).1.users[0]? = some userA ∧
    (serve ShouldBindJSON (State.mk [userA] [])
      ([Request.GET (bytesOf "1")] ++ [Request.POST bodyNoName])).1.users[0]? = some userA :=
  ⟨by decide,
    (store_append_only ShouldBindJSON (State.mk [userA] []) bodyNoName [] []).2.2.1 0 userA
      (by decide),
    (store_append_only ShouldBindJSON (State.mk [userA] []) bodyNoName
      [Request.GET (bytesOf "1")] [Request.POST bodyNoName]).2.2.2.2.2 0 userA (by decide)⟩

/-- C8: Lookup results are stable under later Creates.  If `getUserByID`
answers 200 with `u` for a path parameter, then after any finite sequence of
further `createUser` calls, whatever their bodies, it still answers 200 with
the same `u` for that parameter. -/
theorem lookup_stable_under_creates (bind : Binder) (st : State) (id : GoBytes) (u : User)
    (bodies : List Body)
    (h : (getUserByID st id).2 = ⟨200, JSONBody.user u⟩) :
    (getUserByID (serve bind st (bodies.map Request.POST)).1 id).2 =
      ⟨200, JSONBody.user u⟩ := by
  have hl := getUserByID_ok_loop st id u h
  rw [getUserByID_response, serve_users,
    loop_append_of_some _ st.users _ _ hl]
  rfl

/-- Witness of C8: A is found under identifier 1, and still is after two
Creates, one of them with identifier 1 again. -/
theorem lookup_stable_under_creates_witness :
    (getUserByID (State.mk [userA] []) (bytesOf "1")).2 = ⟨200, JSONBody.user userA⟩ ∧
    (getUserByID (serve ShouldBindJSON (State.mk [userA] [])
      ([bodyNoEmail, bodyNoName].map Request.POST)).1 (bytesOf "1")).2 =
      ⟨200, JSONBody.user userA⟩ :=
  ⟨by decide,
    lookup_stable_under_creates ShouldBindJSON (State.mk [userA] []) (bytesOf "1") userA
      [bodyNoEmail, bodyNoName] (by decide)⟩

/-- C9: Lookup is read-only.  For every state and every path parameter the
state after `getUserByID` is the state before it, so a second Lookup with
the same parameter gives the same response. -/
theorem lookup_read_only (st : State) (id : GoBytes) :
    (getUserByID st id).1 = st ∧
    (getUserByID st id).1.users = st.users ∧
    (getUserByID (getUserByID st id).1 id).2 = (getUserByID st id).2 := by
  have h := getUserByID_state st id
  exact ⟨h, by rw [h], by rw [h]⟩

/-- C10: `validateUser` is the non-emptiness predicate on name and email.
It returns true exactly when the name and the email are both non-empty,
whatever the identifier; and `createUser` does not call it: on a user for
which it is false the store still grows by that user, the response is still
200 with that user, and nothing is printed. -/
theorem validateUser_nonempty (bind : Binder) (st : State) (body : Body) (u : User)
    (i : Int) :
    ((validateUser st u).2 = true ↔ u.Name ≠ "" ∧ u.Email ≠ "") ∧
    (validateUser st ⟨i, u.Name, u.Email⟩).2 = (validateUser st u).2 ∧
    ((validateUser st (bind body User.zero).1).2 = false →
      createUser bind st body =
        (⟨st.users ++ [(bind body User.zero).1], st.stdout⟩,
          ⟨200, JSONBody.user (bind body User.zero).1⟩)) ∧
    (createUser bind st body).1.stdout = st.stdout := by
  refine ⟨?_, ?_, fun _ => rfl, rfl⟩
  · unfold validateUser
    by_cases hn : u.Name = ""
    · simp [hn]
    · by_cases he : u.Email = ""
      · simp [hn, he]
      · simp [hn, he]
  · unfold validateUser
    by_cases hn : u.Name = ""
    · simp [hn]
    · by_cases he : u.Email = ""
      · simp [hn, he]
      · simp [hn, he]

/-- Witness of C10: on the user 7 with empty name and email `validateUser`
is false and prints a line, yet `createUser` stores and echoes that user and
prints nothing. -/
theorem validateUser_nonempty_witness :
    (validateUser State.empty (ShouldBindJSON bodyNoName User.zero).1).2 = false ∧
    (validateUser State.empty (ShouldBindJSON bodyNoName User.zero).1).1.stdout =
      ["Name is empty"] ∧
    createUser ShouldBindJSON State.empty bodyNoName =
      (⟨State.empty.users ++ [(ShouldBindJSON bodyNoName User.zero).1], State.empty.stdout⟩,
        ⟨200, JSONBody.user (ShouldBindJSON bodyNoName User.zero).1⟩) ∧
    (validateUser State.empty userA).2 = true :=
  ⟨by decide, by decide,
    (validateUser_nonempty ShouldBindJSON State.empty bodyNoName userA 0).2.2.1 (by decide),
    by decide⟩

/-- C6, counterexample: `GET /users/9223372036854775808`.  `Atoi` fails on
this parameter with a range error and returns the largest `int`, so with
the user of that identifier stored and no user 0, `getUserByID` answers 200
with that user, where a lookup with identifier 0 would answer 404. -/
theorem lookup_range_error_not_zero :
    (Atoi (bytesOf "9223372036854775808")).2 = some NumError.ErrRange ∧
    (Atoi (bytesOf "9223372036854775808")).1 = 9223372036854775807 ∧
    (getUserByID (State.mk [userMax] []) (bytesOf "9223372036854775808")).2 =
      ⟨200, JSONBody.user userMax⟩ ∧
    lookupSpec (State.mk [userMax] []).users 0 = notFound ∧
    (getUserByID (State.mk [userMax] []) (bytesOf "9223372036854775808")).2 ≠
      lookupSpec (State.mk [userMax] []).users 0 := by
  decide

/-- C6, amended: a parse failure is a lookup with the value `Atoi` returns.
When `Atoi` fails with a syntax error that value is 0, and `getUserByID`
answers with the first stored user whose identifier is 0, or 404 if there is
none; when it fails with a range error the value is the largest or the
smallest `int`, and the lookup is made with that identifier. -/
theorem lookup_on_parse_failure (st : State) (id : GoBytes) :
    ((Atoi id).2 = some NumError.ErrSyntax →
      (Atoi id).1 = 0 ∧ (getUserByID st id).2 = lookupSpec st.users 0) ∧
    ((Atoi id).2 = some NumError.ErrRange →
      ((Atoi id).1 = 2 ^ 63 - 1 ∨ (Atoi id).1 = -2 ^ 63) ∧
      (getUserByID st id).2 = lookupSpec st.users (Atoi id).1) := by
  constructor
  · intro h
    have h0 := Atoi_syntaxErr id h
    refine ⟨h0, ?_⟩
    rw [getUserByID_eq_lookupSpec, h0]
  · intro h
    exact ⟨Atoi_rangeErr id h, getUserByID_eq_lookupSpec st id⟩

/-- Witness of C6: `GET /users/abc` resolves as identifier 0: it answers 404
on a store without a user 0, and with the first user 0 when there is one. -/
theorem lookup_on_parse_failure_witness :
    (Atoi (bytesOf "abc")).2 = some NumError.ErrSyntax ∧
    ((Atoi (bytesOf "abc")).1 = 0 ∧
      (getUserByID (State.mk [userA, User.zero, ⟨0, "Z", ""⟩] []) (bytesOf "abc")).2 =
        lookupSpec (State.mk [userA, User.zero, ⟨0, "Z", ""⟩] []).users 0) ∧
    (getUserByID (State.mk [userA, User.zero, ⟨0, "Z", ""⟩] []) (bytesOf "abc")).2 =
      ⟨200, JSONBody.user User.zero⟩ ∧
    (getUserByID (State.mk [userA] []) (bytesOf "abc")).2 = notFound ∧
    (Atoi (bytesOf "-9223372036854775809")).2 = some NumError.ErrRange ∧
    (((Atoi (bytesOf "-9223372036854775809")).1 = 2 ^ 63 - 1 ∨
        (Atoi (bytesOf "-9223372036854775809")).1 = -2 ^ 63) ∧
      (getUserByID State.empty (bytesOf "-9223372036854775809")).2 =
        lookupSpec State.empty.users (Atoi (bytesOf "-9223372036854775809")).1) :=
  ⟨by decide,
    (lookup_on_parse_failure (State.mk [userA, User.zero, ⟨0, "Z", ""⟩] []) (bytesOf "abc")).1
      (by decide),
    by decide, by decide, by decide,
    (lookup_on_parse_failure State.empty (bytesOf "-9223372036854775809")).2 (by decide)⟩

/-- C7, counterexample: the body `{"id":"x","name":"A","email":"a@x.com"}`.
Binding fails on the ill-typed `id`, yet name and email are decoded, so the
user `createUser` appends and echoes is not the zero-valued one. -/
theorem create_bad_id_not_zero :
    (ShouldBindJSON bodyBadID User.zero).2 = some BindError.unmarshalType ∧
    createUser ShouldBindJSON State.empty bodyBadID =
      (⟨[⟨0, "A", "a@x.com"⟩], []⟩, ⟨200, JSONBody.user ⟨0, "A", "a@x.com"⟩⟩) ∧
    (⟨0, "A", "a@x.com"⟩ : User) ≠ User.zero ∧
    createUser ShouldBindJSON State.empty bodyBadID ≠
      (⟨State.empty.users ++ [User.zero], []⟩, ⟨200, JSONBody.user User.zero⟩) := by
  decide

/-- C7, amended: a body on which binding fails is not rejected.
`createUser` appends the value binding left in `newUser` and answers 200
with it; that value is the zero-valued `User` (identifier 0, empty name,
empty email) whenever no JSON object could be read from the body. -/
theorem create_on_bind_failure (st : State) (body : Body)
    (hfail : (ShouldBindJSON body User.zero).2 ≠ none) :
    (createUser ShouldBindJSON st body).1.users =
      st.users ++ [(ShouldBindJSON body User.zero).1] ∧
    (createUser ShouldBindJSON st body).2 =
      ⟨200, JSONBody.user (ShouldBindJSON body User.zero).1⟩ ∧
    (body.isObject = false →
      (ShouldBindJSON body User.zero).1 = User.zero ∧
      (createUser ShouldBindJSON st body).1.users = st.users ++ [User.zero] ∧
      (createUser ShouldBindJSON st body).2 = ⟨200, JSONBody.user User.zero⟩) := by
  refine ⟨rfl, rfl, ?_⟩
  intro hobj
  have hz : (ShouldBindJSON body User.zero).1 = User.zero := by
    cases body with
    | invalid => rfl
    | json v =>
      cases v with
      | object members => simp [Body.isObject] at hobj
      | null => rfl
      | bool b => rfl
      | number lit => rfl
      | string s => rfl
      | array items => rfl
  refine ⟨hz, ?_, ?_⟩
  · show st.users ++ [(ShouldBindJSON body User.zero).1] = st.users ++ [User.zero]
    rw [hz]
  · show (⟨200, JSONBody.user (ShouldBindJSON body User.zero).1⟩ : Response) = _
    rw [hz]

/-- Witness of C7: a body that is not JSON at all, and a body that is a JSON
array, both fail to bind and both store and echo the zero-valued user. -/
theorem create_on_bind_failure_witness :
    ((ShouldBindJSON Body.invalid User.zero).2 ≠ none ∧
      (createUser ShouldBindJSON (State.mk [userA] []) Body.invalid).1.users =
        (State.mk [userA] []).users ++ [User.zero] ∧
      (createUser ShouldBindJSON (State.mk [userA] []) Body.invalid).2 =
        ⟨200, JSONBody.user User.zero⟩) ∧
    ((ShouldBindJSON (Body.json (JSON.array [])) User.zero).2 ≠ none ∧
      (createUser ShouldBindJSON State.empty (Body.json (JSON.array []))).2 =
        ⟨200, JSONBody.user User.zero⟩) :=
  ⟨⟨by decide,
      ((create_on_bind_failure (State.mk [userA] []) Body.invalid (by decide)).2.2
        (by decide)).2⟩,
    ⟨by decide,
      ((create_on_bind_failure State.empty (Body.json (JSON.array [])) (by decide)).2.2
        (by decide)).2.2⟩⟩

end UserService
